import Mathlib

/-!
Shallow embedding of `ML/train_and_export.py`: a CLI pipeline that trains a
YOLO detection model and exports it to a CoreML package.  Module-level
constants, the run locator (`get_best_weights`), the dataset provider
(`download_data`), the training orchestrator (`train`), the export
orchestrator (`export_to_coreml`) and the `__main__` block (`mainRun`) are
translated from the source.  External collaborators (Roboflow download,
Ultralytics training and conversion) are modelled by their observable
effects on an explicit filesystem state.
-/

namespace TrainAndExport

/-- `ROBOFLOW_VERSION = 18` from the source module constants. -/
def ROBOFLOW_VERSION : Nat := 18

/-- `DATA_ROOT = Path(f"Mahjong_detect-{ROBOFLOW_VERSION}")`. -/
def DATA_ROOT : String := "Mahjong_detect-" ++ toString ROBOFLOW_VERSION

/-- `BASE_MODEL = "yolo11s.pt"`. -/
def BASE_MODEL : String := "yolo11s.pt"

/-- `EPOCHS = 30`: the initial value of the module-level global. -/
def EPOCHS : Int := 30

/-- `IMGSZ = 640`. -/
def IMGSZ : Nat := 640

/-- `RUNS_DIR = Path("runs/detect")`; its `.parent` is `"runs"`. -/
def RUNS_DIR_parent : String := "runs"

/-- `RUNS_DIR.name = "detect"`. -/
def RUNS_DIR_name : String := "detect"

/-- `COREML_OUTPUT_NAME = "MahjongTileDetector"`. -/
def COREML_OUTPUT_NAME : String := "MahjongTileDetector"

/-- Python exception values raised by the script: `ValueError` (missing
API key) and `FileNotFoundError` (missing data.yaml / missing weights). -/
inductive PyErr where
  | valueError (msg : String)
  | fileNotFoundError (msg : String)
deriving DecidableEq, Repr

instance {ε α : Type} [DecidableEq ε] [DecidableEq α] : DecidableEq (Except ε α) := fun a b =>
  match a, b with
  | Except.ok x, Except.ok y =>
      if h : x = y then isTrue (congrArg Except.ok h)
      else isFalse (fun hh => h (Except.ok.inj hh))
  | Except.error x, Except.error y =>
      if h : x = y then isTrue (congrArg Except.error h)
      else isFalse (fun hh => h (Except.error.inj hh))
  | Except.ok _, Except.error _ => isFalse (fun hh => Except.noConfusion hh)
  | Except.error _, Except.ok _ => isFalse (fun hh => Except.noConfusion hh)

/-- Lexicographic (code-point) comparison of character lists: exactly the
order Python uses to compare `str` values. -/
def leChars : List Char → List Char → Bool
  | [], _ => true
  | _ :: _, [] => false
  | a :: as, b :: bs => if a = b then leChars as bs else decide (a < b)

/-- Python's `<=` on strings: code-point lexicographic order. -/
def strLeb (a b : String) : Bool := leChars a.data b.data

/-- One training-run directory under `runs/`, as seen by the globs
`detect*/weights/best.pt` and `detect*/weights/last.pt`: its directory
name and which checkpoint files its `weights/` subdirectory contains. -/
structure Run where
  name : String
  hasBest : Bool
  hasLast : Bool
deriving DecidableEq, Repr

/-- Whether the first character list starts with the second one. -/
def startsWithChars : List Char → List Char → Bool
  | _, [] => true
  | [], _ :: _ => false
  | a :: as, b :: bs => if a = b then startsWithChars as bs else false

/-- Whether a run directory name matches the glob fragment `detect*`:
the name starts with `"detect"`. -/
def runMatches (r : Run) : Bool := startsWithChars r.name.data "detect".data

/-- The full path of a run's best checkpoint, as produced by the glob
`RUNS_DIR.parent.glob("detect*/weights/best.pt")`. -/
def bestPath (n : String) : String := RUNS_DIR_parent ++ "/" ++ n ++ "/weights/best.pt"

/-- The full path of a run's last checkpoint, as produced by the glob
`RUNS_DIR.parent.glob("detect*/weights/last.pt")`. -/
def lastPath (n : String) : String := RUNS_DIR_parent ++ "/" ++ n ++ "/weights/last.pt"

/-- All best-checkpoint paths over the matched runs (the first glob). -/
def bestPaths (runs : List Run) : List String :=
  (runs.filter (fun r => runMatches r && r.hasBest)).map (fun r => bestPath r.name)

/-- All last-checkpoint paths over the matched runs (the second glob). -/
def lastPaths (runs : List Run) : List String :=
  (runs.filter (fun r => runMatches r && r.hasLast)).map (fun r => lastPath r.name)

/-- Python's `sorted()` on path strings: an ascending sort under the
lexicographic (code-point) string order. -/
def pySorted (l : List String) : List String :=
  List.insertionSort (fun a b => strLeb a b = true) l

/-- `get_best_weights()`: try `sorted(glob best.pt)[-1]`, then
`sorted(glob last.pt)[-1]`, else raise `FileNotFoundError`. -/
def get_best_weights (runs : List Run) : Except PyErr String :=
  match (pySorted (bestPaths runs)).getLast? with
  | some p => Except.ok p
  | none =>
    match (pySorted (lastPaths runs)).getLast? with
    | some p => Except.ok p
    | none => Except.error (PyErr.fileNotFoundError
        "No trained weights found. Run with --train first.")

/-- A package on disk, abstracted as its member files (name, bytes). -/
abbrev Pkg := List (String × List Nat)

/-- The filesystem region the export touches: a finite map from path to
package, as an association list. -/
abbrev FS := List (String × Pkg)

/-- Look up the package at a path. -/
def fsGet (fs : FS) (k : String) : Option Pkg :=
  match fs with
  | [] => none
  | (k', v) :: rest => if k' = k then some v else fsGet rest k

/-- `shutil.rmtree` / deletion of the bundle at a path. -/
def fsRemove (fs : FS) (k : String) : FS :=
  match fs with
  | [] => []
  | (k', v) :: rest => if k' = k then fsRemove rest k else (k', v) :: fsRemove rest k

/-- Write a package at a path, replacing any bundle already there. -/
def fsSet (fs : FS) (k : String) (v : Pkg) : FS := (k, v) :: fsRemove fs k

/-- How many bundles the filesystem holds at a given path. -/
def countKey (fs : FS) (k : String) : Nat :=
  match fs with
  | [] => 0
  | (k', _) :: rest => (if k' = k then 1 else 0) + countKey rest k

/-- Split a path into its directory part (with trailing slash) and its
final component. -/
def splitDir (p : String) : String × String :=
  let rev := p.data.reverse
  (String.mk (rev.dropWhile (fun c => c != '/')).reverse,
   String.mk (rev.takeWhile (fun c => c != '/')).reverse)

/-- Drop the extension of a file name the way `pathlib` computes `stem`:
everything from the last dot on, unless the only dot is the leading one. -/
def dropExtension (name : String) : String :=
  match (name.data.reverse.dropWhile (fun c => c != '.')) with
  | [] => name
  | _ :: stemRev => if stemRev.isEmpty then name else String.mk stemRev.reverse

/-- `pathlib.Path.with_suffix`: replace the final component's extension. -/
def with_suffix (p : String) (suffix : String) : String :=
  (splitDir p).1 ++ dropExtension (splitDir p).2 ++ suffix

/-- The argument bundle of the `model.export(...)` call. -/
structure ConvCall where
  format : String
  nms : Bool
  imgsz : Nat
  weights : String
deriving DecidableEq, Repr

/-- Which branch the post-conversion check took: the rename to the
canonical output path, or the warning print when the predicted adjacent
output is absent. -/
inductive ExportOutcome where
  | moved (target : String)
  | warned (expected : String)
deriving DecidableEq, Repr

/-- Observable result of a completed `export_to_coreml` call: the
conversion invocation it made, the final filesystem, and which
post-conversion branch ran. -/
structure ExportTrace where
  call : ConvCall
  fs : FS
  outcome : ExportOutcome
deriving DecidableEq, Repr

/-- `if weights_path is None: weights_path = get_best_weights()`. -/
def resolve_weights (runs : List Run) (weights_path : Option String) : Except PyErr String :=
  match weights_path with
  | some w => Except.ok w
  | none => get_best_weights runs

/-- The argument bundle of the `model.export(format="coreml", nms=True,
imgsz=IMGSZ)` call made on the loaded weights. -/
def mkConvCall (w : String) : ConvCall :=
  { format := "coreml", nms := true, imgsz := IMGSZ, weights := w }

/-- The canonical output path `Path(f"{COREML_OUTPUT_NAME}.mlpackage")`. -/
def targetPath : String := COREML_OUTPUT_NAME ++ ".mlpackage"

/-- Effect of the external conversion routine on the filesystem: `some p`
means it wrote package `p` at its conventional adjacent output path
`weights_path.with_suffix(".mlpackage")`; `none` means it produced no
file there. -/
def convFS (fs : FS) (w : String) (conv : Option Pkg) : FS :=
  match conv with
  | some p => fsSet fs (with_suffix w ".mlpackage") p
  | none => fs

/-- The rename branch: `if target.exists(): shutil.rmtree(target)` then
`exported.rename(target)`, where `p` is the bundle found at the predicted
adjacent path `exported`. -/
def exportMove (fs1 : FS) (call : ConvCall) (exported : String) (p : Pkg) : ExportTrace :=
  { call := call,
    fs := fsSet (fsRemove (if (fsGet fs1 targetPath).isSome
                   then fsRemove fs1 targetPath else fs1) exported) targetPath p,
    outcome := ExportOutcome.moved targetPath }

/-- `export_to_coreml(weights_path)`: resolve the weights (delegating to
`get_best_weights` when none are given; the raised exception propagates),
invoke the conversion routine, then check the predicted adjacent output
path: if it exists, remove any bundle already at the canonical output
path and rename the fresh output there; otherwise print a warning naming
the expected path and return normally. -/
def export_to_coreml (fs : FS) (runs : List Run) (weights_path : Option String)
    (conv : Option Pkg) : Except PyErr ExportTrace :=
  match resolve_weights runs weights_path with
  | Except.error e => Except.error e
  | Except.ok w =>
    match fsGet (convFS fs w conv) (with_suffix w ".mlpackage") with
    | some p =>
      Except.ok (exportMove (convFS fs w conv) (mkConvCall w) (with_suffix w ".mlpackage") p)
    | none =>
      Except.ok { call := mkConvCall w, fs := convFS fs w conv,
                  outcome := ExportOutcome.warned (with_suffix w ".mlpackage") }

/-- The remediation message of the `ValueError` raised when no API key is
configured. -/
def API_KEY_remediation : String :=
  "Set your Roboflow API key:\n  echo 'API_KEY=your_key_here' > .env"

/-- `download_data()`.  `api_key` is `os.environ.get("API_KEY")` after
`load_dotenv()`: `none` when unset.  Python's `if not api_key` also
treats the empty string as missing.  On success the Roboflow client
authenticates and fetches the dataset (`Except.ok`); the `ValueError` is
raised before any Roboflow object is constructed. -/
def download_data (api_key : Option String) : Except PyErr Unit :=
  match api_key with
  | none => Except.error (PyErr.valueError API_KEY_remediation)
  | some k =>
      if k = "" then Except.error (PyErr.valueError API_KEY_remediation)
      else Except.ok ()

/-- The filesystem facts `train()` consults: whether `DATA_ROOT` exists
and whether `DATA_ROOT/data.yaml` exists. -/
structure TrainState where
  dataRootExists : Bool
  dataYamlExists : Bool
deriving DecidableEq, Repr

/-- The argument bundle of the `model.train(...)` call. -/
structure TrainCall where
  data : String
  epochs : Int
  imgsz : Nat
  batch : Int
  device : String
  project : String
  name : String
deriving DecidableEq, Repr

/-- Result of a `train()` invocation: the outcome (the training call made,
or the exception raised), the filesystem state when control left the
function, and how many remote dataset fetches were performed. -/
structure TrainRes where
  outcome : Except PyErr TrainCall
  st : TrainState
  fetches : Nat
deriving DecidableEq, Repr

/-- The tail of `train()` after the dataset-ensure step: check
`data.yaml`, then invoke `model.train(...)` with the module constants and
the current value of the `EPOCHS` global. -/
def trainAfterEnsure (st : TrainState) (fetches : Nat) (epochsG : Int) : TrainRes :=
  if st.dataYamlExists then
    { outcome := Except.ok
        { data := DATA_ROOT ++ "/data.yaml", epochs := epochsG, imgsz := IMGSZ,
          batch := -1, device := "mps", project := RUNS_DIR_parent, name := RUNS_DIR_name },
      st := st, fetches := fetches }
  else
    { outcome := Except.error (PyErr.fileNotFoundError ("Missing " ++ DATA_ROOT ++ "/data.yaml")),
      st := st, fetches := fetches }

/-- `train()`.  If `DATA_ROOT` does not exist, `download_data()` runs
first; a successful remote fetch materializes the dataset root (whether
the fetched dataset contains `data.yaml` is the hosting service's
business, modelled by `dlYaml`).  `epochsG` is the current value of the
module-level `EPOCHS` global. -/
def train (st : TrainState) (api_key : Option String) (dlYaml : Bool) (epochsG : Int) : TrainRes :=
  if st.dataRootExists then
    trainAfterEnsure st 0 epochsG
  else
    match download_data api_key with
    | Except.error e => { outcome := Except.error e, st := st, fetches := 0 }
    | Except.ok _ => trainAfterEnsure { dataRootExists := true, dataYamlExists := dlYaml } 1 epochsG

/-- Observable result of one run of the `__main__` block. -/
structure MainRes where
  usage : Bool
  trainRes : Option TrainRes
  exportRes : Option (Except PyErr ExportTrace)
  exitCode : Nat
deriving DecidableEq, Repr

/-- `argparse`: `--epochs` defaults to the module constant `EPOCHS`. -/
def argEpochs (override : Option Int) : Int := override.getD EPOCHS

/-- `w = Path(args.weights) if args.weights else None`: the empty string
is falsy, like an absent flag. -/
def weightsArg (w : Option String) : Option String :=
  match w with
  | some s => if s = "" then none else some s
  | none => none

/-- `if args.epochs != EPOCHS: EPOCHS = args.epochs` — the value of the
module-level `EPOCHS` global after the `__main__` block has applied the
`--epochs` override. -/
def epochsGlobal (override : Option Int) : Int :=
  if argEpochs override ≠ EPOCHS then argEpochs override else EPOCHS

/-- The `__main__` block: apply the `--epochs` override to the `EPOCHS`
global, print usage when neither flag is given, then run `train()` and/or
`export_to_coreml()`.  An uncaught exception terminates the process with
exit code 1 and skips the remaining stages. -/
def mainRun (st : TrainState) (fs : FS) (runs : List Run) (api_key : Option String)
    (dlYaml : Bool) (conv : Option Pkg) (trainFlag exportFlag : Bool)
    (weights : Option String) (epochsOverride : Option Int) : MainRes :=
  let epochsG := epochsGlobal epochsOverride
  if !trainFlag && !exportFlag then
    { usage := true, trainRes := none, exportRes := none, exitCode := 0 }
  else if trainFlag then
    let tr := train st api_key dlYaml epochsG
    match tr.outcome with
    | Except.error _ => { usage := false, trainRes := some tr, exportRes := none, exitCode := 1 }
    | Except.ok _ =>
      if exportFlag then
        let er := export_to_coreml fs runs (weightsArg weights) conv
        { usage := false, trainRes := some tr, exportRes := some er,
          exitCode := match er with | Except.ok _ => 0 | Except.error _ => 1 }
      else { usage := false, trainRes := some tr, exportRes := none, exitCode := 0 }
  else
    let er := export_to_coreml fs runs (weightsArg weights) conv
    { usage := false, trainRes := none, exportRes := some er,
      exitCode := match er with | Except.ok _ => 0 | Except.error _ => 1 }

theorem data_append (a b : String) : (a ++ b).data = a.data ++ b.data := rfl

theorem leChars_refl (l : List Char) : leChars l l = true := by
  induction l with
  | nil => rfl
  | cons a as ih => simp [leChars, ih]

theorem leChars_total (a b : List Char) : leChars a b = true ∨ leChars b a = true := by
  induction a generalizing b with
  | nil => left; rfl
  | cons x xs ih =>
    cases b with
    | nil => right; rfl
    | cons y ys =>
      by_cases hxy : x = y
      · subst hxy
        simp only [leChars, if_pos rfl]
        exact ih ys
      · rcases lt_trichotomy x y with h | h | h
        · left
          simp only [leChars, if_neg hxy]
          exact decide_eq_true h
        · exact absurd h hxy
        · right
          have hyx : ¬ y = x := fun e => hxy e.symm
          simp only [leChars, if_neg hyx]
          exact decide_eq_true h

theorem leChars_trans (a b c : List Char) (h1 : leChars a b = true)
    (h2 : leChars b c = true) : leChars a c = true := by
  induction a generalizing b c with
  | nil => rfl
  | cons x xs ih =>
    cases b with
    | nil => simp [leChars] at h1
    | cons y ys =>
      cases c with
      | nil => simp [leChars] at h2
      | cons z zs =>
        by_cases hxy : x = y
        · subst hxy
          simp only [leChars, if_pos rfl] at h1
          by_cases hyz : x = z
          · subst hyz
            simp only [leChars, if_pos rfl] at h2 ⊢
            exact ih ys zs h1 h2
          · simp only [leChars, if_neg hyz] at h2 ⊢
            exact h2
        · simp only [leChars, if_neg hxy] at h1
          have hxy' : x < y := of_decide_eq_true h1
          by_cases hyz : y = z
          · subst hyz
            simp only [leChars, if_neg hxy]
            exact decide_eq_true hxy'
          · simp only [leChars, if_neg hyz] at h2
            have hyz' : y < z := of_decide_eq_true h2
            have hxz : x < z := lt_trans hxy' hyz'
            simp only [leChars, if_neg (ne_of_lt hxz)]
            exact decide_eq_true hxz

instance : IsRefl String (fun a b => strLeb a b = true) :=
  ⟨fun a => leChars_refl a.data⟩

instance : IsTotal String (fun a b => strLeb a b = true) :=
  ⟨fun a b => leChars_total a.data b.data⟩

instance : IsTrans String (fun a b => strLeb a b = true) :=
  ⟨fun a b c => leChars_trans a.data b.data c.data⟩

theorem pySorted_sorted (l : List String) :
    (pySorted l).Sorted (fun a b => strLeb a b = true) :=
  List.sorted_insertionSort _ l

theorem mem_pySorted {l : List String} {x : String} : x ∈ pySorted l ↔ x ∈ l :=
  List.mem_insertionSort _

theorem pySorted_eq_nil_iff {l : List String} : pySorted l = [] ↔ l = [] := by
  constructor
  · intro h
    have hlen : l.length = 0 := by
      rw [← List.length_insertionSort (fun a b => strLeb a b = true) l]
      rw [pySorted] at h
      rw [h]
      rfl
    exact List.length_eq_zero.mp hlen
  · intro h
    subst h
    rfl

theorem sorted_getLast?_max : ∀ (l : List String),
    l.Sorted (fun a b => strLeb a b = true) →
    ∀ (x m : String), x ∈ l → l.getLast? = some m → strLeb x m = true
  | [], _, x, _, hx, _ => absurd hx (List.not_mem_nil x)
  | [a], _, x, m, hx, hm => by
      have hxa : x = a := by simpa using hx
      have hma : a = m := by simpa using hm
      subst hxa
      subst hma
      exact leChars_refl _
  | a :: b :: t, hs, x, m, hx, hm => by
      rw [List.getLast?_cons_cons] at hm
      have hmm : m ∈ b :: t := List.mem_of_mem_getLast? hm
      rcases List.mem_cons.mp hx with rfl | hx'
      · exact List.rel_of_sorted_cons hs m hmm
      · exact sorted_getLast?_max (b :: t) hs.of_cons x m hx' hm

theorem get_best_weights_of_best {runs : List Run} {m : String}
    (h : (pySorted (bestPaths runs)).getLast? = some m) :
    get_best_weights runs = Except.ok m := by
  unfold get_best_weights
  rw [h]

theorem get_best_weights_of_fallback {runs : List Run} {m : String}
    (hb : (pySorted (bestPaths runs)).getLast? = none)
    (h : (pySorted (lastPaths runs)).getLast? = some m) :
    get_best_weights runs = Except.ok m := by
  unfold get_best_weights
  rw [hb, h]

theorem get_best_weights_of_none {runs : List Run}
    (hb : (pySorted (bestPaths runs)).getLast? = none)
    (hl : (pySorted (lastPaths runs)).getLast? = none) :
    get_best_weights runs = Except.error (PyErr.fileNotFoundError
      "No trained weights found. Run with --train first.") := by
  unfold get_best_weights
  rw [hb, hl]

theorem bestPath_ne_lastPath (n m : String) : bestPath n ≠ lastPath m := by
  intro h
  have hd : (RUNS_DIR_parent ++ "/" ++ n).data ++ ("/weights/best.pt" : String).data
      = (RUNS_DIR_parent ++ "/" ++ m).data ++ ("/weights/last.pt" : String).data := by
    have hdata := congrArg String.data h
    simpa only [bestPath, lastPath, data_append] using hdata
  have hlen : ("/weights/best.pt" : String).data.length
      = ("/weights/last.pt" : String).data.length := by decide
  have hsuffix := (List.append_inj' hd hlen).2
  exact absurd hsuffix (by decide)

theorem bestPath_mem_bestPaths {runs : List Run} {r : Run} (hr : r ∈ runs)
    (hm : runMatches r = true) (hb : r.hasBest = true) :
    bestPath r.name ∈ bestPaths runs := by
  unfold bestPaths
  exact List.mem_map_of_mem _ (List.mem_filter.mpr ⟨hr, by simp [hm, hb]⟩)

theorem mem_bestPaths_shape {runs : List Run} {p : String} (hp : p ∈ bestPaths runs) :
    ∃ n, p = bestPath n := by
  unfold bestPaths at hp
  rcases List.mem_map.mp hp with ⟨r, _, rfl⟩
  exact ⟨r.name, rfl⟩

theorem mem_lastPaths_shape {runs : List Run} {p : String} (hp : p ∈ lastPaths runs) :
    ∃ n, p = lastPath n := by
  unfold lastPaths at hp
  rcases List.mem_map.mp hp with ⟨r, _, rfl⟩
  exact ⟨r.name, rfl⟩

theorem bestPaths_not_mem_lastPaths {runs runs' : List Run} {p : String}
    (hp : p ∈ bestPaths runs) : p ∉ lastPaths runs' := by
  intro hq
  rcases mem_bestPaths_shape hp with ⟨n, rfl⟩
  rcases mem_lastPaths_shape hq with ⟨n', he⟩
  exact bestPath_ne_lastPath n n' he

theorem paths_eq_nil {runs : List Run}
    (h : ∀ r ∈ runs, runMatches r = true → r.hasBest = false ∧ r.hasLast = false) :
    bestPaths runs = [] ∧ lastPaths runs = [] := by
  constructor
  · unfold bestPaths
    have hf : runs.filter (fun r => runMatches r && r.hasBest) = [] := by
      rw [List.filter_eq_nil_iff]
      intro r hr
      simp only [Bool.and_eq_true, not_and]
      intro hm
      rw [(h r hr hm).1]
      simp
    rw [hf]
    rfl
  · unfold lastPaths
    have hf : runs.filter (fun r => runMatches r && r.hasLast) = [] := by
      rw [List.filter_eq_nil_iff]
      intro r hr
      simp only [Bool.and_eq_true, not_and]
      intro hm
      rw [(h r hr hm).2]
      simp
    rw [hf]
    rfl

theorem get_best_weights_best_case {runs : List Run} {p : String}
    (hbl : (pySorted (bestPaths runs)).getLast? = some p) :
    p ∈ bestPaths runs ∧ ∀ q ∈ bestPaths runs, strLeb q p = true := by
  have hmem : p ∈ bestPaths runs :=
    mem_pySorted.mp (List.mem_of_mem_getLast? hbl)
  refine ⟨hmem, fun q hq => ?_⟩
  exact sorted_getLast?_max _ (pySorted_sorted _) q p (mem_pySorted.mpr hq) hbl

theorem get_best_weights_fallback_case {runs : List Run} {p : String}
    (hb : bestPaths runs = []) (hok : get_best_weights runs = Except.ok p) :
    p ∈ lastPaths runs ∧ ∀ q ∈ lastPaths runs, strLeb q p = true := by
  have hsb : (pySorted (bestPaths runs)).getLast? = none := by
    rw [pySorted_eq_nil_iff.mpr hb]
    rfl
  cases hll : (pySorted (lastPaths runs)).getLast? with
  | none =>
    rw [get_best_weights_of_none hsb hll] at hok
    exact absurd hok (by simp)
  | some m =>
    rw [get_best_weights_of_fallback hsb hll] at hok
    have hpm : m = p := Except.ok.inj hok
    subst hpm
    have hmem : m ∈ lastPaths runs := mem_pySorted.mp (List.mem_of_mem_getLast? hll)
    refine ⟨hmem, fun q hq => ?_⟩
    exact sorted_getLast?_max _ (pySorted_sorted _) q m (mem_pySorted.mpr hq) hll

theorem fsGet_fsSet_self (fs : FS) (k : String) (v : Pkg) :
    fsGet (fsSet fs k v) k = some v := by
  simp [fsSet, fsGet]

theorem countKey_fsRemove_self (fs : FS) (k : String) :
    countKey (fsRemove fs k) k = 0 := by
  induction fs with
  | nil => rfl
  | cons e rest ih =>
    obtain ⟨k', v⟩ := e
    by_cases hk : k' = k
    · simp [fsRemove, hk, ih]
    · simp [fsRemove, countKey, hk, ih]

theorem countKey_fsSet_self (fs : FS) (k : String) (v : Pkg) :
    countKey (fsSet fs k v) k = 1 := by
  simp [fsSet, countKey, countKey_fsRemove_self]

theorem resolve_weights_none (runs : List Run) :
    resolve_weights runs none = get_best_weights runs := rfl

theorem resolve_weights_some (runs : List Run) (w : String) :
    resolve_weights runs (some w) = Except.ok w := rfl

theorem convFS_some (fs : FS) (w : String) (p : Pkg) :
    convFS fs w (some p) = fsSet fs (with_suffix w ".mlpackage") p := rfl

theorem convFS_none (fs : FS) (w : String) : convFS fs w none = fs := rfl

/-- C2: whenever some run matched by the `detect*` glob holds a "best"
checkpoint, `get_best_weights` succeeds with the sorted-last "best"
checkpoint path over all matched runs — a path that is never a "last"
checkpoint; only when the best tier is empty does a successful lookup
return the sorted-last "last" checkpoint; and on the spec's example tree
`{detect: last only, detect2: best and last}` it returns
`runs/detect2/weights/best.pt`. -/
theorem getBestWeights_best_over_last (runs : List Run) (r : Run) (hr : r ∈ runs)
    (hm : runMatches r = true) (hb : r.hasBest = true) :
    (∃ p, get_best_weights runs = Except.ok p ∧
        (pySorted (bestPaths runs)).getLast? = some p ∧
        p ∈ bestPaths runs ∧ (∀ q ∈ bestPaths runs, strLeb q p = true) ∧
        p ∉ lastPaths runs) ∧
    (∀ runs2 p2, bestPaths runs2 = [] → get_best_weights runs2 = Except.ok p2 →
        p2 ∈ lastPaths runs2 ∧ ∀ q ∈ lastPaths runs2, strLeb q p2 = true) ∧
    get_best_weights [⟨"detect", false, true⟩, ⟨"detect2", true, true⟩]
      = Except.ok "runs/detect2/weights/best.pt" := by
  refine ⟨?_, fun runs2 p2 hb2 hok2 => get_best_weights_fallback_case hb2 hok2, by decide⟩
  have hmem := bestPath_mem_bestPaths hr hm hb
  have hne : bestPaths runs ≠ [] := List.ne_nil_of_mem hmem
  have hsne : pySorted (bestPaths runs) ≠ [] := fun hh => hne (pySorted_eq_nil_iff.mp hh)
  obtain ⟨m, hm'⟩ := Option.isSome_iff_exists.mp (List.getLast?_isSome.mpr hsne)
  obtain ⟨hmem', hmax⟩ := get_best_weights_best_case hm'
  exact ⟨m, get_best_weights_of_best hm', hm', hmem', hmax,
    bestPaths_not_mem_lastPaths hmem'⟩

/-- Witness for C2: the theorem applied to the spec's example tree, with
`detect2` as the matched run holding a best checkpoint. -/
theorem getBestWeights_best_over_last_witness :
    (∃ p, get_best_weights [⟨"detect", false, true⟩, ⟨"detect2", true, true⟩] = Except.ok p ∧
        (pySorted (bestPaths [⟨"detect", false, true⟩, ⟨"detect2", true, true⟩])).getLast?
          = some p ∧
        p ∈ bestPaths [⟨"detect", false, true⟩, ⟨"detect2", true, true⟩] ∧
        (∀ q ∈ bestPaths [⟨"detect", false, true⟩, ⟨"detect2", true, true⟩],
          strLeb q p = true) ∧
        p ∉ lastPaths [⟨"detect", false, true⟩, ⟨"detect2", true, true⟩]) ∧
    (∀ runs2 p2, bestPaths runs2 = [] → get_best_weights runs2 = Except.ok p2 →
        p2 ∈ lastPaths runs2 ∧ ∀ q ∈ lastPaths runs2, strLeb q p2 = true) ∧
    get_best_weights [⟨"detect", false, true⟩, ⟨"detect2", true, true⟩]
      = Except.ok "runs/detect2/weights/best.pt" :=
  getBestWeights_best_over_last [⟨"detect", false, true⟩, ⟨"detect2", true, true⟩]
    ⟨"detect2", true, true⟩ (by decide) (by decide) rfl

/-- C10: a successful lookup returns the maximum of its tier under plain
lexicographic string ordering of the full candidate paths (not numeric
run ordering); in particular with runs `detect2` and `detect10` both
holding a best checkpoint, it returns `runs/detect2/weights/best.pt`, the
string-sorted last, even though `detect10` is the more recent run. -/
theorem getBestWeights_plain_string_order (runs : List Run) (p : String)
    (h : get_best_weights runs = Except.ok p) :
    (get_best_weights [⟨"detect2", true, true⟩, ⟨"detect10", true, true⟩]
        = Except.ok "runs/detect2/weights/best.pt") ∧
    strLeb "runs/detect10/weights/best.pt" "runs/detect2/weights/best.pt" = true ∧
    ((p ∈ bestPaths runs ∧ ∀ q ∈ bestPaths runs, strLeb q p = true) ∨
      (bestPaths runs = [] ∧ p ∈ lastPaths runs ∧
        ∀ q ∈ lastPaths runs, strLeb q p = true)) := by
  refine ⟨by decide, by decide, ?_⟩
  cases hbl : (pySorted (bestPaths runs)).getLast? with
  | some m =>
    rw [get_best_weights_of_best hbl] at h
    have hmp : m = p := Except.ok.inj h
    subst hmp
    exact Or.inl (get_best_weights_best_case hbl)
  | none =>
    have hb : bestPaths runs = [] :=
      pySorted_eq_nil_iff.mp (List.getLast?_eq_none_iff.mp hbl)
    exact Or.inr ⟨hb, get_best_weights_fallback_case hb h⟩

/-- Witness for C10 at the tree `{detect2: best, detect10: best}`. -/
theorem getBestWeights_plain_string_order_witness :
    (get_best_weights [⟨"detect2", true, true⟩, ⟨"detect10", true, true⟩]
        = Except.ok "runs/detect2/weights/best.pt") ∧
    strLeb "runs/detect10/weights/best.pt" "runs/detect2/weights/best.pt" = true ∧
    (("runs/detect2/weights/best.pt"
          ∈ bestPaths [⟨"detect2", true, true⟩, ⟨"detect10", true, true⟩] ∧
        ∀ q ∈ bestPaths [⟨"detect2", true, true⟩, ⟨"detect10", true, true⟩],
          strLeb q "runs/detect2/weights/best.pt" = true) ∨
      (bestPaths [⟨"detect2", true, true⟩, ⟨"detect10", true, true⟩] = [] ∧
        "runs/detect2/weights/best.pt"
          ∈ lastPaths [⟨"detect2", true, true⟩, ⟨"detect10", true, true⟩] ∧
        ∀ q ∈ lastPaths [⟨"detect2", true, true⟩, ⟨"detect10", true, true⟩],
          strLeb q "runs/detect2/weights/best.pt" = true)) :=
  getBestWeights_plain_string_order [⟨"detect2", true, true⟩, ⟨"detect10", true, true⟩]
    "runs/detect2/weights/best.pt" (by decide)

/-- C6: when no matched run holds a best checkpoint and none holds a last
checkpoint (an empty runs root included), `get_best_weights` raises
`FileNotFoundError` telling the caller to train first, an export invoked
without an explicit weights path propagates that same error, and the main
block exits with status 1. -/
theorem getBestWeights_not_found (runs : List Run) (fs : FS) (conv : Option Pkg)
    (st : TrainState) (api_key : Option String) (dlYaml : Bool)
    (h : ∀ r ∈ runs, runMatches r = true → r.hasBest = false ∧ r.hasLast = false) :
    get_best_weights runs = Except.error (PyErr.fileNotFoundError
        "No trained weights found. Run with --train first.") ∧
    export_to_coreml fs runs none conv = Except.error (PyErr.fileNotFoundError
        "No trained weights found. Run with --train first.") ∧
    (mainRun st fs runs api_key dlYaml conv false true none none).exitCode = 1 := by
  obtain ⟨hb, hl⟩ := paths_eq_nil h
  have hsb : (pySorted (bestPaths runs)).getLast? = none := by
    rw [pySorted_eq_nil_iff.mpr hb]
    rfl
  have hsl : (pySorted (lastPaths runs)).getLast? = none := by
    rw [pySorted_eq_nil_iff.mpr hl]
    rfl
  have hgw := get_best_weights_of_none hsb hsl
  have hexp : export_to_coreml fs runs none conv = Except.error (PyErr.fileNotFoundError
      "No trained weights found. Run with --train first.") := by
    unfold export_to_coreml
    rw [resolve_weights_none, hgw]
  refine ⟨hgw, hexp, ?_⟩
  simp [mainRun, weightsArg, hexp]

/-- Witness for C6 at the empty runs root. -/
theorem getBestWeights_not_found_witness :
    get_best_weights [] = Except.error (PyErr.fileNotFoundError
        "No trained weights found. Run with --train first.") ∧
    export_to_coreml [] [] none none = Except.error (PyErr.fileNotFoundError
        "No trained weights found. Run with --train first.") ∧
    (mainRun ⟨true, true⟩ [] [] none true none false true none none).exitCode = 1 :=
  getBestWeights_not_found [] [] none ⟨true, true⟩ none true (by simp)

theorem targetPath_eq : targetPath = "MahjongTileDetector.mlpackage" := rfl

/-- C1 counterexample: an export invocation in which the conversion
routine completes but the predicted adjacent output path does not exist
afterwards finishes with `Except.ok` — the code prints a warning and
returns normally — rather than terminating with an
`ExportArtifactMissingError` (no such error exists in the script). -/
theorem export_artifact_missing_counterexample :
    export_to_coreml [] [] (some "w.pt") none
      = Except.ok { call := { format := "coreml", nms := true, imgsz := 640, weights := "w.pt" },
                    fs := [], outcome := ExportOutcome.warned "w.mlpackage" } := by
  decide

/-- C1 (amended): whenever the conversion routine completes without
producing the predicted adjacent output and nothing already sits at that
path, the export prints a warning naming the expected path, searches no
alternate locations, changes nothing on disk, and completes normally
(`Except.ok`, the warned outcome) instead of failing with an error. -/
theorem export_warns_when_artifact_missing (fs : FS) (runs : List Run)
    (wp : Option String) (w : String)
    (hw : resolve_weights runs wp = Except.ok w)
    (hmiss : fsGet fs (with_suffix w ".mlpackage") = none) :
    export_to_coreml fs runs wp none
      = Except.ok { call := mkConvCall w, fs := fs,
                    outcome := ExportOutcome.warned (with_suffix w ".mlpackage") } := by
  simp only [export_to_coreml, hw, convFS, hmiss]

/-- Witness for the amended C1 at a concrete weights path. -/
theorem export_warns_when_artifact_missing_witness :
    resolve_weights [] (some "w.pt") = Except.ok "w.pt" ∧
    fsGet [] (with_suffix "w.pt" ".mlpackage") = none ∧
    export_to_coreml [] [] (some "w.pt") none
      = Except.ok { call := mkConvCall "w.pt", fs := [],
                    outcome := ExportOutcome.warned (with_suffix "w.pt" ".mlpackage") } :=
  ⟨rfl, rfl, export_warns_when_artifact_missing [] [] (some "w.pt") "w.pt" rfl rfl⟩

/-- C3: a successful export in which the conversion routine wrote the
fresh package `p` at the predicted adjacent path always takes the rename
branch to the constant canonical output path
`MahjongTileDetector.mlpackage` — the same constant whatever the runs
tree or weights path — and afterwards exactly one bundle sits at that
path: the fresh conversion output `p`; the pre-existing bundle was
removed wholesale. -/
theorem export_replaces_canonical (fs : FS) (runs : List Run) (wp : Option String)
    (p : Pkg) (t : ExportTrace)
    (h : export_to_coreml fs runs wp (some p) = Except.ok t) :
    t.outcome = ExportOutcome.moved "MahjongTileDetector.mlpackage" ∧
    targetPath = "MahjongTileDetector.mlpackage" ∧
    fsGet t.fs "MahjongTileDetector.mlpackage" = some p ∧
    countKey t.fs "MahjongTileDetector.mlpackage" = 1 := by
  cases hres : resolve_weights runs wp with
  | error e =>
    simp only [export_to_coreml, hres] at h
    exact Except.noConfusion h
  | ok w =>
    have hget : fsGet (convFS fs w (some p)) (with_suffix w ".mlpackage") = some p := by
      rw [convFS_some]
      exact fsGet_fsSet_self fs (with_suffix w ".mlpackage") p
    simp only [export_to_coreml, hres, hget] at h
    have ht : exportMove (convFS fs w (some p)) (mkConvCall w) (with_suffix w ".mlpackage") p
        = t := Except.ok.inj h
    subst ht
    refine ⟨rfl, rfl, ?_, ?_⟩
    · exact fsGet_fsSet_self _ targetPath p
    · exact countKey_fsSet_self _ targetPath p

/-- Witness for C3: exporting over a pre-existing canonical package. -/
theorem export_replaces_canonical_witness :
    ({ call := { format := "coreml", nms := true, imgsz := 640, weights := "w.pt" },
       fs := [("MahjongTileDetector.mlpackage", [("new", [2])])],
       outcome := ExportOutcome.moved "MahjongTileDetector.mlpackage" } : ExportTrace).outcome
        = ExportOutcome.moved "MahjongTileDetector.mlpackage" ∧
    targetPath = "MahjongTileDetector.mlpackage" ∧
    fsGet ({ call := { format := "coreml", nms := true, imgsz := 640, weights := "w.pt" },
             fs := [("MahjongTileDetector.mlpackage", [("new", [2])])],
             outcome := ExportOutcome.moved "MahjongTileDetector.mlpackage" } : ExportTrace).fs
        "MahjongTileDetector.mlpackage" = some [("new", [2])] ∧
    countKey ({ call := { format := "coreml", nms := true, imgsz := 640, weights := "w.pt" },
                fs := [("MahjongTileDetector.mlpackage", [("new", [2])])],
                outcome := ExportOutcome.moved "MahjongTileDetector.mlpackage" } :
        ExportTrace).fs "MahjongTileDetector.mlpackage" = 1 :=
  export_replaces_canonical [("MahjongTileDetector.mlpackage", [("old", [1])])] []
    (some "w.pt") [("new", [2])]
    { call := { format := "coreml", nms := true, imgsz := 640, weights := "w.pt" },
      fs := [("MahjongTileDetector.mlpackage", [("new", [2])])],
      outcome := ExportOutcome.moved "MahjongTileDetector.mlpackage" }
    (by decide)

/-- C8: when a package already sits at the canonical output path and the
conversion routine produced nothing at the predicted adjacent path, the
export completes with the warned outcome and leaves the filesystem — in
particular the pre-existing canonical package — completely unchanged. -/
theorem export_fail_preserves_canonical (fs : FS) (runs : List Run) (wp : Option String)
    (w : String) (pkg0 : Pkg)
    (hw : resolve_weights runs wp = Except.ok w)
    (hmiss : fsGet fs (with_suffix w ".mlpackage") = none)
    (hpre : fsGet fs targetPath = some pkg0) :
    ∃ t, export_to_coreml fs runs wp none = Except.ok t ∧
      t.fs = fs ∧ fsGet t.fs targetPath = some pkg0 ∧
      t.outcome = ExportOutcome.warned (with_suffix w ".mlpackage") := by
  refine ⟨{ call := mkConvCall w, fs := fs,
            outcome := ExportOutcome.warned (with_suffix w ".mlpackage") }, ?_, rfl, hpre, rfl⟩
  simp only [export_to_coreml, hw, convFS, hmiss]

/-- Witness for C8: a stale canonical package survives a failed export. -/
theorem export_fail_preserves_canonical_witness :
    resolve_weights [] (some "w.pt") = Except.ok "w.pt" ∧
    fsGet [("MahjongTileDetector.mlpackage", [("old", [1])])]
        (with_suffix "w.pt" ".mlpackage") = none ∧
    fsGet [("MahjongTileDetector.mlpackage", [("old", [1])])] targetPath
        = some [("old", [1])] ∧
    (∃ t, export_to_coreml [("MahjongTileDetector.mlpackage", [("old", [1])])] []
          (some "w.pt") none = Except.ok t ∧
        t.fs = [("MahjongTileDetector.mlpackage", [("old", [1])])] ∧
        fsGet t.fs targetPath = some [("old", [1])] ∧
        t.outcome = ExportOutcome.warned (with_suffix "w.pt" ".mlpackage")) :=
  ⟨rfl, by decide, by decide,
    export_fail_preserves_canonical [("MahjongTileDetector.mlpackage", [("old", [1])])] []
      (some "w.pt") "w.pt" [("old", [1])] rfl (by decide) (by decide)⟩

theorem trainAfterEnsure_fetches (st : TrainState) (f : Nat) (e : Int) :
    (trainAfterEnsure st f e).fetches = f := by
  unfold trainAfterEnsure
  by_cases hy : st.dataYamlExists = true
  · rw [if_pos hy]
  · rw [if_neg hy]

theorem trainAfterEnsure_st (st : TrainState) (f : Nat) (e : Int) :
    (trainAfterEnsure st f e).st = st := by
  unfold trainAfterEnsure
  by_cases hy : st.dataYamlExists = true
  · rw [if_pos hy]
  · rw [if_neg hy]

theorem trainAfterEnsure_call_shape (st : TrainState) (f : Nat) (e : Int)
    (call : TrainCall) (h : (trainAfterEnsure st f e).outcome = Except.ok call) :
    call = { data := DATA_ROOT ++ "/data.yaml", epochs := e, imgsz := IMGSZ,
             batch := -1, device := "mps", project := RUNS_DIR_parent,
             name := RUNS_DIR_name } := by
  unfold trainAfterEnsure at h
  by_cases hy : st.dataYamlExists = true
  · rw [if_pos hy] at h
    exact (Except.ok.inj h).symm
  · rw [if_neg hy] at h
    exact Except.noConfusion h

theorem train_root_true (st : TrainState) (hroot : st.dataRootExists = true)
    (api_key : Option String) (dlYaml : Bool) (e : Int) :
    train st api_key dlYaml e = trainAfterEnsure st 0 e := by
  unfold train
  rw [if_pos hroot]

theorem train_root_false_err (st : TrainState) (hroot : st.dataRootExists = false)
    {api_key : Option String} {e : PyErr} (hdl : download_data api_key = Except.error e)
    (dlYaml : Bool) (ep : Int) :
    train st api_key dlYaml ep = { outcome := Except.error e, st := st, fetches := 0 } := by
  unfold train
  rw [if_neg (by simp [hroot]), hdl]

theorem train_root_false_ok (st : TrainState) (hroot : st.dataRootExists = false)
    {api_key : Option String} {u : Unit} (hdl : download_data api_key = Except.ok u)
    (dlYaml : Bool) (ep : Int) :
    train st api_key dlYaml ep = trainAfterEnsure ⟨true, dlYaml⟩ 1 ep := by
  unfold train
  rw [if_neg (by simp [hroot]), hdl]

theorem train_call_shape (st : TrainState) (api_key : Option String) (dlYaml : Bool)
    (e : Int) (call : TrainCall)
    (h : (train st api_key dlYaml e).outcome = Except.ok call) :
    call = { data := DATA_ROOT ++ "/data.yaml", epochs := e, imgsz := IMGSZ,
             batch := -1, device := "mps", project := RUNS_DIR_parent,
             name := RUNS_DIR_name } := by
  cases hroot : st.dataRootExists with
  | true =>
    rw [train_root_true st hroot] at h
    exact trainAfterEnsure_call_shape _ _ _ _ h
  | false =>
    cases hdl : download_data api_key with
    | error er =>
      rw [train_root_false_err st hroot hdl] at h
      exact Except.noConfusion h
    | ok u =>
      rw [train_root_false_ok st hroot hdl] at h
      exact trainAfterEnsure_call_shape _ _ _ _ h

theorem export_call_shape (fs : FS) (runs : List Run) (wp : Option String)
    (conv : Option Pkg) (t : ExportTrace)
    (h : export_to_coreml fs runs wp conv = Except.ok t) :
    ∃ w, resolve_weights runs wp = Except.ok w ∧ t.call = mkConvCall w := by
  cases hres : resolve_weights runs wp with
  | error e =>
    simp only [export_to_coreml, hres] at h
    exact Except.noConfusion h
  | ok w =>
    refine ⟨w, rfl, ?_⟩
    simp only [export_to_coreml, hres] at h
    cases hget : fsGet (convFS fs w conv) (with_suffix w ".mlpackage") with
    | some p =>
      simp only [hget] at h
      rw [← Except.ok.inj h]
      rfl
    | none =>
      simp only [hget] at h
      rw [← Except.ok.inj h]

/-- C5: every export that reaches the conversion step invokes it with
`format="coreml"`, the non-max-suppression stage fused in (`nms=True`)
and the input resolution pinned to `IMGSZ` — the very constant every
training call uses as its image size — never left to a default. -/
theorem export_nms_and_imgsz_pinned (fs : FS) (runs : List Run) (wp : Option String)
    (conv : Option Pkg) (t : ExportTrace) (st : TrainState) (api_key : Option String)
    (dlYaml : Bool) (e : Int) (call : TrainCall)
    (h1 : export_to_coreml fs runs wp conv = Except.ok t)
    (h2 : (train st api_key dlYaml e).outcome = Except.ok call) :
    t.call.nms = true ∧ t.call.format = "coreml" ∧ t.call.imgsz = IMGSZ ∧
    call.imgsz = IMGSZ ∧ t.call.imgsz = call.imgsz := by
  obtain ⟨w, hres, hcall⟩ := export_call_shape fs runs wp conv t h1
  have hc := train_call_shape st api_key dlYaml e call h2
  rw [hcall, hc]
  exact ⟨rfl, rfl, rfl, rfl, rfl⟩

/-- Witness for C5 at a concrete export and training invocation. -/
theorem export_nms_and_imgsz_pinned_witness :
    ({ call := { format := "coreml", nms := true, imgsz := 640, weights := "w.pt" },
       fs := [], outcome := ExportOutcome.warned "w.mlpackage" } : ExportTrace).call.nms
        = true ∧
    ({ call := { format := "coreml", nms := true, imgsz := 640, weights := "w.pt" },
       fs := [], outcome := ExportOutcome.warned "w.mlpackage" } : ExportTrace).call.format
        = "coreml" ∧
    ({ call := { format := "coreml", nms := true, imgsz := 640, weights := "w.pt" },
       fs := [], outcome := ExportOutcome.warned "w.mlpackage" } : ExportTrace).call.imgsz
        = IMGSZ ∧
    ({ data := "Mahjong_detect-18/data.yaml", epochs := 30, imgsz := 640, batch := -1,
       device := "mps", project := "runs", name := "detect" } : TrainCall).imgsz = IMGSZ ∧
    ({ call := { format := "coreml", nms := true, imgsz := 640, weights := "w.pt" },
       fs := [], outcome := ExportOutcome.warned "w.mlpackage" } : ExportTrace).call.imgsz
        = ({ data := "Mahjong_detect-18/data.yaml", epochs := 30, imgsz := 640, batch := -1,
             device := "mps", project := "runs", name := "detect" } : TrainCall).imgsz :=
  export_nms_and_imgsz_pinned [] [] (some "w.pt") none
    { call := { format := "coreml", nms := true, imgsz := 640, weights := "w.pt" },
      fs := [], outcome := ExportOutcome.warned "w.mlpackage" }
    ⟨true, true⟩ (some "k") true 30
    { data := "Mahjong_detect-18/data.yaml", epochs := 30, imgsz := 640, batch := -1,
      device := "mps", project := "runs", name := "detect" }
    (by decide) (by decide)

/-- C4: dataset materialization is idempotent: when the version-keyed
`DATA_ROOT` already exists, `train()` performs no remote fetch at all,
and two consecutive `train()` invocations perform at most one remote
fetch in total. -/
theorem dataset_ensure_idempotent (st : TrainState) (api_key : Option String)
    (dlYaml : Bool) (e1 e2 : Int) :
    (st.dataRootExists = true → (train st api_key dlYaml e1).fetches = 0) ∧
    (train st api_key dlYaml e1).fetches
      + (train (train st api_key dlYaml e1).st api_key dlYaml e2).fetches ≤ 1 := by
  cases hroot : st.dataRootExists with
  | true =>
    constructor
    · intro _
      rw [train_root_true st hroot, trainAfterEnsure_fetches]
    · rw [train_root_true st hroot, trainAfterEnsure_fetches, trainAfterEnsure_st,
        train_root_true st hroot, trainAfterEnsure_fetches]
      decide
  | false =>
    cases hdl : download_data api_key with
    | error er =>
      constructor
      · intro hh
        exact Bool.noConfusion hh
      · rw [train_root_false_err st hroot hdl, train_root_false_err st hroot hdl]
        simp
    | ok u =>
      constructor
      · intro hh
        exact Bool.noConfusion hh
      · rw [train_root_false_ok st hroot hdl, trainAfterEnsure_fetches, trainAfterEnsure_st,
          train_root_true ⟨true, dlYaml⟩ rfl, trainAfterEnsure_fetches]

/-- Witness for C4 with the dataset root already materialized. -/
theorem dataset_ensure_idempotent_witness :
    (train ⟨true, true⟩ (some "k") true 30).fetches = 0 ∧
    (train ⟨true, true⟩ (some "k") true 30).fetches
      + (train (train ⟨true, true⟩ (some "k") true 30).st (some "k") true 30).fetches ≤ 1 :=
  ⟨(dataset_ensure_idempotent ⟨true, true⟩ (some "k") true 30 30).1 rfl,
   (dataset_ensure_idempotent ⟨true, true⟩ (some "k") true 30 30).2⟩

/-- C7: with no API key available (unset, or the empty string which
Python's truthiness treats the same), `download_data` raises `ValueError`
carrying the exact remediation command before any authentication or fetch
is attempted (zero fetches), `train()` on an absent dataset root
propagates it, and the main block exits with status 1. -/
theorem missing_api_key_fatal (api_key : Option String) (st : TrainState) (fs : FS)
    (runs : List Run) (dlYaml : Bool) (conv : Option Pkg) (e : Int)
    (hk : api_key = none ∨ api_key = some "")
    (hroot : st.dataRootExists = false) :
    download_data api_key = Except.error (PyErr.valueError API_KEY_remediation) ∧
    (train st api_key dlYaml e).outcome
        = Except.error (PyErr.valueError API_KEY_remediation) ∧
    (train st api_key dlYaml e).fetches = 0 ∧
    (mainRun st fs runs api_key dlYaml conv true false none none).exitCode = 1 := by
  have hdl : download_data api_key
      = Except.error (PyErr.valueError API_KEY_remediation) := by
    rcases hk with rfl | rfl
    · rfl
    · rfl
  have htr := train_root_false_err st hroot hdl dlYaml e
  have htrE := train_root_false_err st hroot hdl dlYaml (epochsGlobal none)
  refine ⟨hdl, by rw [htr], by rw [htr], ?_⟩
  simp [mainRun, htrE]

/-- Witness for C7 with the key unset and the dataset absent. -/
theorem missing_api_key_fatal_witness :
    (none = (none : Option String) ∨ (none : Option String) = some "") ∧
    ((⟨false, false⟩ : TrainState).dataRootExists = false) ∧
    download_data none = Except.error (PyErr.valueError API_KEY_remediation) ∧
    (train ⟨false, false⟩ none true 30).outcome
        = Except.error (PyErr.valueError API_KEY_remediation) ∧
    (train ⟨false, false⟩ none true 30).fetches = 0 ∧
    (mainRun ⟨false, false⟩ [] [] none true none true false none none).exitCode = 1 :=
  ⟨Or.inl rfl, rfl,
    missing_api_key_fatal none ⟨false, false⟩ [] [] true none 30 (Or.inl rfl) rfl⟩

theorem mainRun_trainRes (st : TrainState) (fs : FS) (runs : List Run)
    (api_key : Option String) (dlYaml : Bool) (conv : Option Pkg) (exportFlag : Bool)
    (weights : Option String) (override : Option Int) :
    (mainRun st fs runs api_key dlYaml conv true exportFlag weights override).trainRes
      = some (train st api_key dlYaml (epochsGlobal override)) := by
  unfold mainRun
  cases hout : (train st api_key dlYaml (epochsGlobal override)).outcome with
  | error e => simp [hout]
  | ok c => cases exportFlag <;> simp [hout]

/-- C9: the `--epochs` override is written into the `EPOCHS` global
before training starts, so any training call the main block makes trains
for exactly the supplied number of epochs — and for the fixed default of
30 when no override is given. -/
theorem epochs_override_applied (override : Option Int) (st : TrainState) (fs : FS)
    (runs : List Run) (api_key : Option String) (dlYaml : Bool) (conv : Option Pkg)
    (weights : Option String) (exportFlag : Bool) (tr : TrainRes) (call : TrainCall)
    (h1 : (mainRun st fs runs api_key dlYaml conv true exportFlag weights override).trainRes
        = some tr)
    (h2 : tr.outcome = Except.ok call) :
    call.epochs = override.getD 30 := by
  rw [mainRun_trainRes] at h1
  have htr : tr = train st api_key dlYaml (epochsGlobal override) :=
    (Option.some.inj h1).symm
  subst htr
  have hc := train_call_shape _ _ _ _ _ h2
  rw [hc]
  show epochsGlobal override = override.getD 30
  unfold epochsGlobal
  by_cases hne : argEpochs override ≠ EPOCHS
  · rw [if_pos hne]
    rfl
  · rw [if_neg hne]
    rw [← not_not.mp hne]
    rfl

/-- Witness for C9 with `--epochs 7`. -/
theorem epochs_override_applied_witness :
    ({ data := "Mahjong_detect-18/data.yaml", epochs := 7, imgsz := 640, batch := -1,
       device := "mps", project := "runs", name := "detect" } : TrainCall).epochs
      = (some (7 : Int)).getD 30 :=
  epochs_override_applied (some 7) ⟨true, true⟩ [] [] (some "k") true none none false
    { outcome := Except.ok
        { data := "Mahjong_detect-18/data.yaml", epochs := 7, imgsz := 640, batch := -1,
          device := "mps", project := "runs", name := "detect" },
      st := ⟨true, true⟩, fetches := 0 }
    { data := "Mahjong_detect-18/data.yaml", epochs := 7, imgsz := 640, batch := -1,
      device := "mps", project := "runs", name := "detect" }
    (by decide) (by decide)

end TrainAndExport
